import Mathlib

/-!
Verification of the dual-view graph editor (`src/src/App.tsx`).

The repository contains two near-duplicate application variants in one file
(separated by a document marker): the first occupies lines 1-566, the second
lines 567-1109.  The shared-state logic (`updateNodePosition`, `deleteNode`,
selection handling, `edgesWithPositions`) is textually identical in both
variants and is embedded once.  The coordinate scaling and the 3D edge
routing differ between the variants and are embedded separately with `_v1`
and `_v2` suffixes.

Planar coordinates are modelled as rationals (the JS numbers involved are
exact decimals); the arrowhead angle, which involves `Math.atan2` and vector
normalisation, is modelled over the reals.
-/

namespace PersFlow

/-- A planar position `{x, y}` as stored on a React Flow node. -/
structure Pos where
  x : ℚ
  y : ℚ
deriving DecidableEq, Repr

/-- A 3D scene vector (`THREE.Vector3`) with exact rational components. -/
structure Vec3 where
  x : ℚ
  y : ℚ
  z : ℚ
deriving DecidableEq, Repr

/-- A graph node: `{ id, data: { label }, position }` (App.tsx initialNodes shape). -/
structure FlowNode where
  id : String
  label : String
  position : Pos
deriving DecidableEq, Repr

/-- A graph edge: `{ id, source, target }` (App.tsx initialEdges shape;
styling fields carry no graph semantics and are omitted). -/
structure FlowEdge where
  id : String
  source : String
  target : String
deriving DecidableEq, Repr

/-- The shared mutable state of `DualViewFlow`: the `nodes` and `edges`
React state plus the `selectedNode` selection state. -/
structure FlowState where
  nodes : List FlowNode
  edges : List FlowEdge
  selectedNode : Option String
deriving DecidableEq, Repr

/-- The function `updateNodePosition` (App.tsx lines 365-380 and 909-924): maps over the
node list, replacing the position of the node whose id matches. -/
def updateNodePosition (id : String) (newPos : Pos) (st : FlowState) : FlowState :=
  { st with
    nodes := st.nodes.map fun node =>
      if node.id = id then { node with position := newPos } else node }

/-- The function `deleteNode` (App.tsx lines 402-412 and 946-956): filters the node out of
the node list, filters out every edge whose source or target is the id, and
clears the selection when it names the deleted id.  All three updates happen
inside the single callback invocation, so they are modelled as one atomic
state transition. -/
def deleteNode (id : String) (st : FlowState) : FlowState :=
  { nodes := st.nodes.filter fun node => node.id != id
    edges := st.edges.filter fun edge => edge.source != id && edge.target != id
    selectedNode := if st.selectedNode = some id then none else st.selectedNode }

/-- The function `setSelectedNode` (the `useState` setter shared through `FlowContext`):
sets the selection unconditionally. -/
def setSelectedNode (v : Option String) (st : FlowState) : FlowState :=
  { st with selectedNode := v }

/-- A connect request payload (source id, target id). -/
structure Connection where
  source : String
  target : String
deriving DecidableEq, Repr

/-- Model of the `addEdge` utility imported from `@xyflow/react` and called by
`onConnect` (App.tsx lines 898-901, second variant only).  The utility
receives only the connection and the current edge list: it returns the list
unchanged when the connection is missing an endpoint id or duplicates an
existing connection, and otherwise appends a new edge whose id is derived
from the endpoint ids.  It has no access to the node list and performs no
liveness check on the endpoints. -/
def addEdgeUtil (c : Connection) (edges : List FlowEdge) : List FlowEdge :=
  if c.source = "" ∨ c.target = "" then edges
  else if edges.any fun e => e.source == c.source && e.target == c.target then edges
  else edges ++
    [{ id := "xy-edge__" ++ c.source ++ "-" ++ c.target
       source := c.source
       target := c.target }]

/-- The callback `onConnect` (App.tsx lines 898-901): `setEdges((eds) => addEdge(connection, eds))`. -/
def onConnect (c : Connection) (st : FlowState) : FlowState :=
  { st with edges := addEdgeUtil c st.edges }

/-- The seed data (App.tsx lines 312-350, identical in both variants). -/
def initialNodes : List FlowNode :=
  [ { id := "1", label := "Node 1", position := { x := 0, y := 0 } },
    { id := "2", label := "Node 2", position := { x := 200, y := 100 } },
    { id := "3", label := "Node 3", position := { x := -100, y := 100 } } ]

/-- The seed edges `{1→2, 1→3}` (App.tsx lines 333-350). -/
def initialEdges : List FlowEdge :=
  [ { id := "e1-2", source := "1", target := "2" },
    { id := "e1-3", source := "1", target := "3" } ]

/-- The initial application state: seed nodes and edges, nothing selected. -/
def initialState : FlowState :=
  { nodes := initialNodes, edges := initialEdges, selectedNode := none }

/-- Selection invariant as a decidable check: the selection is either unset or
names a node currently present in the store. -/
def selectionOk (st : FlowState) : Bool :=
  match st.selectedNode with
  | none => true
  | some s => st.nodes.any fun n => n.id == s

/-- Edge-endpoint liveness invariant as a decidable check: for every edge the source
and target name nodes currently present in the store (spec invariant 1). -/
def edgesOk (st : FlowState) : Bool :=
  st.edges.all fun e =>
    (st.nodes.any fun n => n.id == e.source) && (st.nodes.any fun n => n.id == e.target)

/-- The derived list `edgesWithPositions` (App.tsx lines 383-400 and 927-944): resolves the endpoints of each
edge against the node list, falling back to `{x: 0, y: 0}` for a
missing node. -/
def edgesWithPositions (nodes : List FlowNode) (edges : List FlowEdge) :
    List (FlowEdge × Pos × Pos) :=
  edges.map fun edge =>
    let sourceNode := nodes.find? fun n => n.id == edge.source
    let targetNode := nodes.find? fun n => n.id == edge.target
    (edge, (sourceNode.map FlowNode.position).getD { x := 0, y := 0 },
      (targetNode.map FlowNode.position).getD { x := 0, y := 0 })

/-! ## Coordinate Mapper

First variant: `Node3D` places a node at `(position.x / 50, -position.y / 50,
0.005)` (lines 112, 149-155) and `handleTransformChange` converts a scene
position back via `(position.x * 50, -position.y * 50)` (lines 130-138).

Second variant: `Node3D` places a node at `(position.x / 100, -position.y /
100)` (lines 704-709) and converts back via `(position.x * 100, -position.y *
100)` (lines 683-695). -/

/-- First variant `toScene`: planar position to scene position (divisor 50,
Y flipped, constant z 0.005). -/
def toScene_v1 (p : Pos) : Vec3 :=
  { x := p.x / 50, y := -p.y / 50, z := 1 / 200 }

/-- First variant `toPlanar`: scene position back to planar position
(multiplier 50, Y flipped; z ignored). -/
def toPlanar_v1 (s : Vec3) : Pos :=
  { x := s.x * 50, y := -s.y * 50 }

/-- Second variant `toScene`: planar position to scene position (divisor 100,
Y flipped; this variant leaves z untouched). -/
def toScene_v2 (p : Pos) : Pos :=
  { x := p.x / 100, y := -p.y / 100 }

/-- Second variant `toPlanar`: scene position back to planar position
(multiplier 100, Y flipped). -/
def toPlanar_v2 (s : Pos) : Pos :=
  { x := s.x * 100, y := -s.y * 100 }

/-! ## Edge Router, first variant (App.tsx lines 240-307)

`Edge3D` of the first variant scales the endpoint planar positions by
divisor 25 (not the 50 used for nodes), offsets the end point by +0.5 in
scene Y, drops a fixed 0.8 stub below the start and above the end, and joins
the stubs through two mid points at x = half the pivot x-distance. -/

/-- First variant `startPoint` (lines 246-250). -/
def startPoint_v1 (sourcePosition : Pos) : Vec3 :=
  { x := sourcePosition.x / 25, y := -sourcePosition.y / 25, z := 1 / 200 }

/-- First variant `endPoint` (lines 252-256): note the +0.5 Y offset. -/
def endPoint_v1 (targetPosition : Pos) : Vec3 :=
  { x := targetPosition.x / 25, y := -targetPosition.y / 25 + 1 / 2, z := 1 / 200 }

/-- First variant `firstPivot` (line 258): 0.8 below the start point. -/
def firstPivot_v1 (sourcePosition : Pos) : Vec3 :=
  { x := (startPoint_v1 sourcePosition).x
    y := (startPoint_v1 sourcePosition).y - 4 / 5
    z := 1 / 200 }

/-- First variant `lastPivot` (line 259): 0.8 above the end point. -/
def lastPivot_v1 (targetPosition : Pos) : Vec3 :=
  { x := (endPoint_v1 targetPosition).x
    y := (endPoint_v1 targetPosition).y + 4 / 5
    z := 1 / 200 }

/-- First variant waypoint list (lines 262-284): six points
`[startPoint, firstPivot, mid1, mid2, lastPivot, endPoint]`. -/
def edgePoints_v1 (s t : Pos) : List Vec3 :=
  let startPoint := startPoint_v1 s
  let endPoint := endPoint_v1 t
  let firstPivot := firstPivot_v1 s
  let lastPivot := lastPivot_v1 t
  let xAxisDistance := lastPivot.x - firstPivot.x
  let mid1 : Vec3 := { x := xAxisDistance / 2, y := firstPivot.y, z := 1 / 200 }
  let mid2 : Vec3 := { x := xAxisDistance / 2, y := lastPivot.y, z := 1 / 200 }
  [startPoint, firstPivot, mid1, mid2, lastPivot, endPoint]

/-- First variant arrowhead rotation about z (line 299): the constant
`Math.PI`, independent of the segment directions. -/
noncomputable def arrowZRotation_v1 : ℝ := Real.pi

/-! ## Edge Router, second variant (App.tsx lines 787-839)

`Edge3D` of the second variant scales the endpoint planar positions by
divisor 50 (not the 100 used for nodes), compares the absolute axis deltas,
and bends once at `mid`, yielding a three-point polyline; the arrowhead is
rotated by `atan2` of the normalised final segment plus 90 degrees. -/

/-- Second variant `startPoint` (lines 793-797). -/
def edgeStart_v2 (sourcePosition : Pos) : Vec3 :=
  { x := sourcePosition.x / 50, y := -sourcePosition.y / 50, z := 1 / 200 }

/-- Second variant `endPoint` (lines 799-803). -/
def edgeEnd_v2 (targetPosition : Pos) : Vec3 :=
  { x := targetPosition.x / 50, y := -targetPosition.y / 50, z := 1 / 200 }

/-- Second variant `mid` (lines 805-812): if the absolute x-delta strictly
exceeds the absolute y-delta the bend is at `(endPoint.x, startPoint.y)`,
otherwise at `(startPoint.x, endPoint.y)`. -/
def edgeMid_v2 (sourcePosition targetPosition : Pos) : Vec3 :=
  let startPoint := edgeStart_v2 sourcePosition
  let endPoint := edgeEnd_v2 targetPosition
  let xAxisDistance := |endPoint.x - startPoint.x|
  let yAxisDistance := |endPoint.y - startPoint.y|
  { x := if xAxisDistance > yAxisDistance then endPoint.x else startPoint.x
    y := if xAxisDistance > yAxisDistance then startPoint.y else endPoint.y
    z := 1 / 200 }

/-- Second variant waypoint list (line 822): `[startPoint, mid, endPoint]`. -/
def edgePoints_v2 (s t : Pos) : List Vec3 :=
  [edgeStart_v2 s, edgeMid_v2 s t, edgeEnd_v2 t]

/-- The function `Math.atan2 y x`, modelled piecewise over the reals (signed zeros do not
arise in this development, so the zero row collapses to the principal
values). -/
noncomputable def atan2 (y x : ℝ) : ℝ :=
  if 0 < x then Real.arctan (y / x)
  else if x < 0 then
    (if 0 ≤ y then Real.arctan (y / x) + Real.pi else Real.arctan (y / x) - Real.pi)
  else
    (if 0 < y then Real.pi / 2 else if y < 0 then -(Real.pi / 2) else 0)

/-- The method `THREE.Vector3.normalize`: it divides by `length() || 1`, so the zero vector
is left unchanged rather than producing NaN components. -/
noncomputable def normalize3 (v : ℝ × ℝ × ℝ) : ℝ × ℝ × ℝ :=
  let len := Real.sqrt (v.1 ^ 2 + v.2.1 ^ 2 + v.2.2 ^ 2)
  let d := if len = 0 then 1 else len
  (v.1 / d, v.2.1 / d, v.2.2 / d)

/-- Second variant arrowhead angle (lines 814-816):
`atan2` of the normalised `endPoint - mid` direction, plus 90 degrees. -/
noncomputable def edgeAngle_v2 (s t : Pos) : ℝ :=
  let m := edgeMid_v2 s t
  let e := edgeEnd_v2 t
  let direction := normalize3
    (((e.x : ℝ) - (m.x : ℝ)), ((e.y : ℝ) - (m.y : ℝ)), ((e.z : ℝ) - (m.z : ℝ)))
  atan2 direction.2.1 direction.1 + Real.pi / 2



/-! ## Graph Store theorems -/

/-- C1: `deleteNode id` removes the node with that id and, in the same atomic
state transition, every edge whose source or target equals `id`; from the
seed nodes `{1,2,3}` and edges `{1→2, 1→3}`, `deleteNode "1"` leaves an empty
edge set and exactly the nodes `{2,3}`; and for an id naming no node it is a
no-op on any state satisfying the liveness and selection
invariants of the store. -/
theorem deleteNode_cascade :
    (∀ (st : FlowState) (id : String) (n : FlowNode),
      n ∈ (deleteNode id st).nodes ↔ n ∈ st.nodes ∧ n.id ≠ id) ∧
    (∀ (st : FlowState) (id : String) (e : FlowEdge),
      e ∈ (deleteNode id st).edges ↔ e ∈ st.edges ∧ e.source ≠ id ∧ e.target ≠ id) ∧
    ((deleteNode ("1") initialState).edges = [] ∧
      (deleteNode ("1") initialState).nodes.map FlowNode.id = [("2"), ("3")]) ∧
    (∀ (st : FlowState) (id : String),
      selectionOk st = true → edgesOk st = true →
      (st.nodes.all fun n => n.id != id) = true → deleteNode id st = st) := by
  refine ⟨?_, ?_, ⟨by decide, by decide⟩, ?_⟩
  · intro st id n
    simp [deleteNode, List.mem_filter, bne_iff_ne]
  · intro st id e
    simp [deleteNode, List.mem_filter, Bool.and_eq_true, bne_iff_ne]
  · intro st id hsel hedges habs
    rw [List.all_eq_true] at habs
    have hnode : ∀ n ∈ st.nodes, n.id ≠ id := fun n hn => bne_iff_ne.mp (habs n hn)
    cases st with
    | mk nodes edges sel =>
      simp only [deleteNode, FlowState.mk.injEq]
      refine ⟨?_, ?_, ?_⟩
      · exact List.filter_eq_self.mpr fun n hn => bne_iff_ne.mpr (hnode n hn)
      · refine List.filter_eq_self.mpr fun e he => ?_
        rw [edgesOk, List.all_eq_true] at hedges
        have hb := hedges e he
        rw [Bool.and_eq_true] at hb
        obtain ⟨hsrc, htgt⟩ := hb
        obtain ⟨ns, hns, hnse⟩ := List.any_eq_true.mp hsrc
        obtain ⟨nt, hnt, hnte⟩ := List.any_eq_true.mp htgt
        have h1 : e.source ≠ id := (eq_of_beq hnse) ▸ hnode ns hns
        have h2 : e.target ≠ id := (eq_of_beq hnte) ▸ hnode nt hnt
        simp [Bool.and_eq_true, bne_iff_ne, h1, h2]
      · cases sel with
        | none => simp
        | some s =>
          simp only [selectionOk] at hsel
          obtain ⟨n, hn, hne⟩ := List.any_eq_true.mp hsel
          have hs : s ≠ id := (eq_of_beq hne) ▸ hnode n hn
          simp [hs]

/-- Witness for C1: the no-op branch applied to the seed state and the
unknown id `"99"`. -/
theorem deleteNode_cascade_witness :
    selectionOk initialState = true ∧ edgesOk initialState = true ∧
    (initialState.nodes.all fun n => n.id != ("99")) = true ∧
    deleteNode ("99") initialState = initialState :=
  ⟨by decide, by decide, by decide,
    deleteNode_cascade.2.2.2 initialState ("99") (by decide) (by decide) (by decide)⟩

/-- C2: the selection invariant — the selection is none or names a node
present in the store — is preserved by `updateNodePosition`, `deleteNode`,
selecting a present node, clearing the selection, and `onConnect`; and
selecting `id` and then calling `deleteNode id` always leaves the selection
cleared. -/
theorem selection_invariant_preserved :
    (∀ (st : FlowState) (id : String) (p : Pos),
      selectionOk st = true → selectionOk (updateNodePosition id p st) = true) ∧
    (∀ (st : FlowState) (id : String),
      selectionOk st = true → selectionOk (deleteNode id st) = true) ∧
    (∀ (st : FlowState) (id : String),
      (st.nodes.any fun n => n.id == id) = true →
      selectionOk (setSelectedNode (some id) st) = true) ∧
    (∀ (st : FlowState), selectionOk (setSelectedNode none st) = true) ∧
    (∀ (st : FlowState) (c : Connection),
      selectionOk st = true → selectionOk (onConnect c st) = true) ∧
    (∀ (st : FlowState) (id : String),
      (deleteNode id (setSelectedNode (some id) st)).selectedNode = none) := by
  refine ⟨?_, ?_, ?_, ?_, ?_, ?_⟩
  · intro st id p h
    cases st with
    | mk nodes edges sel =>
      cases sel with
      | none => rfl
      | some s =>
        simp only [selectionOk, updateNodePosition] at h ⊢
        rw [List.any_map]
        obtain ⟨n, hn, hne⟩ := List.any_eq_true.mp h
        refine List.any_eq_true.mpr ⟨n, hn, ?_⟩
        by_cases hid : n.id = id
        · simpa [Function.comp, hid] using hne
        · simpa [Function.comp, hid] using hne
  · intro st id h
    cases st with
    | mk nodes edges sel =>
      cases sel with
      | none => simp [deleteNode, selectionOk]
      | some s =>
        simp only [selectionOk] at h
        by_cases hsi : s = id
        · simp [deleteNode, selectionOk, hsi]
        · have hcond : ¬(some s = some id) := by simpa using hsi
          simp only [deleteNode, selectionOk, if_neg hcond]
          obtain ⟨n, hn, hne⟩ := List.any_eq_true.mp h
          refine List.any_eq_true.mpr ⟨n, ?_, hne⟩
          refine List.mem_filter.mpr ⟨hn, ?_⟩
          exact bne_iff_ne.mpr ((eq_of_beq hne) ▸ hsi)
  · intro st id h
    exact h
  · intro st
    rfl
  · intro st c h
    exact h
  · intro st id
    simp [deleteNode, setSelectedNode]

/-- Witness for C2: selecting seed node `"1"` keeps the invariant, deleting
it keeps the invariant, and the resulting selection is none. -/
theorem selection_invariant_preserved_witness :
    selectionOk (setSelectedNode (some ("1")) initialState) = true ∧
    selectionOk (deleteNode ("1") (setSelectedNode (some ("1")) initialState)) = true ∧
    (deleteNode ("1") (setSelectedNode (some ("1")) initialState)).selectedNode = none :=
  ⟨selection_invariant_preserved.2.2.1 initialState ("1") (by decide),
    selection_invariant_preserved.2.1 (setSelectedNode (some ("1")) initialState) ("1")
      (by decide),
    selection_invariant_preserved.2.2.2.2.2 initialState ("1")⟩



/-- C6 (code divergence): the connect path performs no endpoint-liveness
check.  Calling `onConnect` with the connection `("nonexistent", "2")` on the
seed state appends an edge whose source names no live node, instead of
rejecting the request: the edge count grows from 2 to 3, the source of the new
edge is `"nonexistent"`, and no node with that id exists. -/
theorem onConnect_dangling_edge :
    (onConnect { source := "nonexistent", target := "2" } initialState).edges.length = 3 ∧
    ((onConnect { source := "nonexistent", target := "2" } initialState).edges.any
      fun e => e.source == "nonexistent") = true ∧
    (initialState.nodes.any fun n => n.id == "nonexistent") = false ∧
    edgesOk (onConnect { source := "nonexistent", target := "2" } initialState) = false := by
  decide

/-- C7: `updateNodePosition` never touches the edge list or the selection,
preserves the node count, per index changes exactly the position of the nodes
whose id matches (keeping id and label), is a silent no-op when the id names
no node, and on the seed state `moveNode "1" (50,50)` moves node `1` and
leaves nodes `2`, `3` and the edge set `{1→2, 1→3}` unchanged. -/
theorem moveNode_frame :
    (∀ (st : FlowState) (id : String) (p : Pos),
      (updateNodePosition id p st).edges = st.edges ∧
      (updateNodePosition id p st).selectedNode = st.selectedNode ∧
      (updateNodePosition id p st).nodes.length = st.nodes.length) ∧
    (∀ (st : FlowState) (id : String) (p : Pos) (i : ℕ)
      (h1 : i < st.nodes.length) (h2 : i < (updateNodePosition id p st).nodes.length),
      ((updateNodePosition id p st).nodes[i]).id = (st.nodes[i]).id ∧
      ((updateNodePosition id p st).nodes[i]).label = (st.nodes[i]).label ∧
      ((updateNodePosition id p st).nodes[i]).position =
        (if (st.nodes[i]).id = id then p else (st.nodes[i]).position)) ∧
    (∀ (st : FlowState) (id : String) (p : Pos),
      (st.nodes.all fun n => n.id != id) = true → updateNodePosition id p st = st) ∧
    ((updateNodePosition ("1") { x := 50, y := 50 } initialState).nodes.map
        (fun n => (n.id, n.position)) =
      [(("1"), ({ x := 50, y := 50 } : Pos)), (("2"), { x := 200, y := 100 }),
        (("3"), { x := -100, y := 100 })] ∧
      (updateNodePosition ("1") { x := 50, y := 50 } initialState).edges = initialEdges ∧
      (updateNodePosition ("1") { x := 50, y := 50 } initialState).selectedNode = none) := by
  refine ⟨?_, ?_, ?_, by decide, by decide, by decide⟩
  · intro st id p
    exact ⟨rfl, rfl, by simp [updateNodePosition]⟩
  · intro st id p i h1 h2
    simp only [updateNodePosition, List.getElem_map]
    by_cases hid : (st.nodes[i]).id = id
    · simp [hid]
    · simp [hid]
  · intro st id p h
    rw [List.all_eq_true] at h
    cases st with
    | mk nodes edges sel =>
      have hcong : ∀ n ∈ nodes,
          (if n.id = id then { n with position := p } else n) = n :=
        fun n hn => if_neg (bne_iff_ne.mp (h n hn))
      have hmap :
          List.map (fun n => if n.id = id then { n with position := p } else n) nodes
            = nodes := by
        rw [List.map_congr_left hcong]
        simp
      simp [updateNodePosition, hmap]

/-- Witness for C7: the per-index description at index 0 of the seed state,
and the silent no-op for the unknown id `"99"`. -/
theorem moveNode_frame_witness :
    ((updateNodePosition ("1") { x := 50, y := 50 } initialState).nodes[0]).position =
      ({ x := 50, y := 50 } : Pos) ∧
    updateNodePosition ("99") { x := 50, y := 50 } initialState = initialState := by
  constructor
  · have h := moveNode_frame.2.1 initialState ("1") { x := 50, y := 50 } 0
      (by decide) (by decide)
    rw [h.2.2]
    decide
  · exact moveNode_frame.2.2.1 initialState ("99") { x := 50, y := 50 } (by decide)



/-! ## Coordinate Mapper and router geometry theorems -/

/-- C3: in both variants the coordinate mapper functions are mutual inverses:
mapping a planar position into the scene (divide by the fixed divisor, flip
Y) and back (multiply by the same divisor, flip Y) returns the original
position exactly. -/
theorem mapper_inverse :
    ∀ p : Pos, toPlanar_v1 (toScene_v1 p) = p ∧ toPlanar_v2 (toScene_v2 p) = p := by
  intro p
  cases p with
  | mk x y =>
    constructor
    · simp only [toScene_v1, toPlanar_v1, Pos.mk.injEq]
      constructor <;> ring
    · simp only [toScene_v2, toPlanar_v2, Pos.mk.injEq]
      constructor <;> ring

/-- Counterexample to C4 as stated: for the seed node position `(200, 100)`,
the router start waypoint of the first variant is `(8, -4)` while the node is
placed at scene position `(4, -2)` — the router does not use the node
placement mapping. -/
theorem edge_endpoint_mismatch :
    startPoint_v1 { x := 200, y := 100 } ≠ toScene_v1 { x := 200, y := 100 } ∧
    (startPoint_v1 { x := 200, y := 100 }).x = 8 ∧
    (startPoint_v1 { x := 200, y := 100 }).y = -4 ∧
    (toScene_v1 { x := 200, y := 100 }).x = 4 ∧
    (toScene_v1 { x := 200, y := 100 }).y = -2 := by
  refine ⟨?_, ?_, ?_, ?_, ?_⟩ <;>
    norm_num [startPoint_v1, toScene_v1, Vec3.mk.injEq]

/-- C4 (amended): each router endpoint is derived from the planar position by
a fixed-divisor, Y-flipping mapping, but with half the divisor the node
placement uses (25 versus 50 in the first variant, 50 versus 100 in the
second), so each endpoint sits at twice the scene coordinates of its node —
and the end waypoint of the first variant is further offset by +0.5 in scene Y.
Edges therefore attach to the nodes they connect only at the origin. -/
theorem edge_endpoint_scaling :
    ∀ p : Pos,
      (startPoint_v1 p).x = 2 * (toScene_v1 p).x ∧
      (startPoint_v1 p).y = 2 * (toScene_v1 p).y ∧
      (endPoint_v1 p).x = 2 * (toScene_v1 p).x ∧
      (endPoint_v1 p).y = 2 * (toScene_v1 p).y + 1 / 2 ∧
      (edgeStart_v2 p).x = 2 * (toScene_v2 p).x ∧
      (edgeStart_v2 p).y = 2 * (toScene_v2 p).y ∧
      (edgeEnd_v2 p).x = 2 * (toScene_v2 p).x ∧
      (edgeEnd_v2 p).y = 2 * (toScene_v2 p).y := by
  intro p
  refine ⟨?_, ?_, ?_, ?_, ?_, ?_, ?_, ?_⟩ <;>
    simp only [startPoint_v1, endPoint_v1, edgeStart_v2, edgeEnd_v2, toScene_v1,
      toScene_v2] <;>
    ring

/-- Counterexample to C10 as stated: the waypoint list of the first variant
has six points, not five. -/
theorem router_polyline_v1_not_five :
    (edgePoints_v1 { x := 0, y := 0 } { x := 200, y := 100 }).length = 6 ∧
    (edgePoints_v1 { x := 0, y := 0 } { x := 200, y := 100 }).length ≠ 5 := by
  decide

/-- C10 (amended): for every input, the router of the first variant outputs
exactly a 6-point polyline and the router of the second variant outputs
exactly a 3-point polyline; both satisfy the general contract of 3 or more
waypoints. -/
theorem router_polyline_sizes :
    ∀ s t : Pos,
      (edgePoints_v1 s t).length = 6 ∧ (edgePoints_v2 s t).length = 3 ∧
      3 ≤ (edgePoints_v1 s t).length ∧ 3 ≤ (edgePoints_v2 s t).length := by
  intro s t
  refine ⟨rfl, rfl, ?_, ?_⟩ <;> simp [edgePoints_v1, edgePoints_v2]

/-- C5: the router of the second variant (the single-elbow Edge Router of
the spec) routes first along the axis with the strictly larger absolute
delta, placing the elbow at the target coordinate on the first-traversed
axis and the source coordinate on the second-traversed axis, and on equal absolute
deltas routes vertical-then-horizontal with elbow `(source.x, target.y)`. -/
theorem elbow_dominant_axis :
    ∀ s t : Pos,
      edgeStart_v2 s ≠ edgeEnd_v2 t →
      edgePoints_v2 s t = [edgeStart_v2 s, edgeMid_v2 s t, edgeEnd_v2 t] ∧
      (|(edgeEnd_v2 t).x - (edgeStart_v2 s).x| > |(edgeEnd_v2 t).y - (edgeStart_v2 s).y| →
        edgeMid_v2 s t =
          { x := (edgeEnd_v2 t).x, y := (edgeStart_v2 s).y, z := 1 / 200 }) ∧
      (|(edgeEnd_v2 t).y - (edgeStart_v2 s).y| > |(edgeEnd_v2 t).x - (edgeStart_v2 s).x| →
        edgeMid_v2 s t =
          { x := (edgeStart_v2 s).x, y := (edgeEnd_v2 t).y, z := 1 / 200 }) ∧
      (|(edgeEnd_v2 t).x - (edgeStart_v2 s).x| = |(edgeEnd_v2 t).y - (edgeStart_v2 s).y| →
        edgeMid_v2 s t =
          { x := (edgeStart_v2 s).x, y := (edgeEnd_v2 t).y, z := 1 / 200 }) := by
  intro s t _
  refine ⟨rfl, ?_, ?_, ?_⟩
  · intro hx
    simp only [edgeMid_v2]
    rw [if_pos hx, if_pos hx]
  · intro hy
    have hnx : ¬(|(edgeEnd_v2 t).x - (edgeStart_v2 s).x| >
        |(edgeEnd_v2 t).y - (edgeStart_v2 s).y|) := not_lt_of_gt hy
    simp only [edgeMid_v2]
    rw [if_neg hnx, if_neg hnx]
  · intro heq
    have hnx : ¬(|(edgeEnd_v2 t).x - (edgeStart_v2 s).x| >
        |(edgeEnd_v2 t).y - (edgeStart_v2 s).y|) := by
      rw [heq]
      exact lt_irrefl _
    simp only [edgeMid_v2]
    rw [if_neg hnx, if_neg hnx]

/-- Witness for C5: distinct scene positions with a dominant x-axis; the
elbow is at `(target.x, source.y)`. -/
theorem elbow_dominant_axis_witness :
    edgeStart_v2 { x := 0, y := 0 } ≠ edgeEnd_v2 { x := 50, y := 0 } ∧
    edgeMid_v2 { x := 0, y := 0 } { x := 50, y := 0 } =
      { x := (edgeEnd_v2 { x := 50, y := 0 }).x,
        y := (edgeStart_v2 { x := 0, y := 0 }).y, z := 1 / 200 } :=
  ⟨by simp [edgeStart_v2, edgeEnd_v2, Vec3.mk.injEq],
    (elbow_dominant_axis { x := 0, y := 0 } { x := 50, y := 0 }
        (by simp [edgeStart_v2, edgeEnd_v2, Vec3.mk.injEq])).2.1
      (by simp [edgeStart_v2, edgeEnd_v2])⟩



/-! ## Arrowhead angle lemmas -/

/-- The function `atan2` is invariant under scaling both arguments by a positive factor. -/
lemma atan2_div_of_pos (y x k : ℝ) (hk : 0 < k) : atan2 (y / k) (x / k) = atan2 y x := by
  have hk0 : k ≠ 0 := ne_of_gt hk
  have hdiv : y / k / (x / k) = y / x := by
    rw [div_div, mul_comm k (x / k), div_mul_cancel₀ x hk0]
  have hx1 : 0 < x / k ↔ 0 < x := div_pos_iff_of_pos_right hk
  have hx2 : x / k < 0 ↔ x < 0 := by
    constructor
    · intro h
      by_contra hx
      push_neg at hx
      exact absurd (div_nonneg hx hk.le) (not_le.mpr h)
    · intro h
      exact div_neg_of_neg_of_pos h hk
  have hy1 : 0 ≤ y / k ↔ 0 ≤ y := by
    constructor
    · intro h
      by_contra hy
      push_neg at hy
      exact absurd h (not_le.mpr (div_neg_of_neg_of_pos hy hk))
    · intro h
      exact div_nonneg h hk.le
  have hy2 : 0 < y / k ↔ 0 < y := div_pos_iff_of_pos_right hk
  have hy3 : y / k < 0 ↔ y < 0 := by
    constructor
    · intro h
      by_contra hy
      push_neg at hy
      exact absurd (div_nonneg hy hk.le) (not_le.mpr h)
    · intro h
      exact div_neg_of_neg_of_pos h hk
  unfold atan2
  rw [hdiv]
  simp only [hx1, hx2, hy1, hy2, hy3]

/-- Normalising a vector (with the `length() || 1` guard) does not change the
`atan2` of its y and x components. -/
lemma atan2_normalize3 (a b c : ℝ) :
    atan2 (normalize3 (a, b, c)).2.1 (normalize3 (a, b, c)).1 = atan2 b a := by
  unfold normalize3
  simp only []
  have hd : 0 < (if Real.sqrt (a ^ 2 + b ^ 2 + c ^ 2) = 0 then (1 : ℝ)
      else Real.sqrt (a ^ 2 + b ^ 2 + c ^ 2)) := by
    split_ifs with h
    · norm_num
    · exact (Real.sqrt_nonneg _).lt_of_ne (Ne.symm h)
  exact atan2_div_of_pos b a _ hd

/-- The arrowhead angle of the router equals `atan2` of the raw (unnormalised)
final segment plus 90 degrees. -/
lemma edgeAngle_v2_eq (s t : Pos) :
    edgeAngle_v2 s t =
      atan2 (((edgeEnd_v2 t).y : ℝ) - ((edgeMid_v2 s t).y : ℝ))
        (((edgeEnd_v2 t).x : ℝ) - ((edgeMid_v2 s t).x : ℝ)) + Real.pi / 2 := by
  unfold edgeAngle_v2
  simp only []
  rw [atan2_normalize3]

/-- C8: with coincident source and target positions the router of the
second variant is total and degenerate: all three waypoints coincide (a zero-length
path) and the arrowhead angle is the well-defined value `π / 2` (the
`length() || 1` guard in the vector normalisation avoids division by zero,
and `atan2 0 0 = 0`); moreover a dangling edge reference resolves both
endpoints to the fallback position `(0, 0)`, feeding the router exactly this
coincident case. -/
theorem router_degenerate :
    (∀ p : Pos,
      edgePoints_v2 p p = [edgeStart_v2 p, edgeStart_v2 p, edgeStart_v2 p] ∧
      edgeAngle_v2 p p = Real.pi / 2) ∧
    edgesWithPositions [] initialEdges =
      [({ id := "e1-2", source := "1", target := "2" },
          { x := 0, y := 0 }, { x := 0, y := 0 }),
        ({ id := "e1-3", source := "1", target := "3" },
          { x := 0, y := 0 }, { x := 0, y := 0 })] := by
  refine ⟨?_, by decide⟩
  intro p
  have hse : edgeEnd_v2 p = edgeStart_v2 p := rfl
  have hmid : edgeMid_v2 p p = edgeStart_v2 p := by
    simp [edgeMid_v2, edgeStart_v2, edgeEnd_v2, sub_self, abs_zero]
  constructor
  · rw [edgePoints_v2, hmid, hse]
  · rw [edgeAngle_v2_eq, hmid, hse]
    simp [atan2]

/-- C9: the arrowhead rotation of the second variant is exactly the angle of the
final polyline segment (elbow to end point) rotated by 90 degrees, and it is
not a constant: two concrete edges give rotations `π/2` and `3π/2`. -/
theorem arrowhead_angle :
    (∀ s t : Pos,
      edgeAngle_v2 s t =
        atan2 (((edgeEnd_v2 t).y : ℝ) - ((edgeMid_v2 s t).y : ℝ))
          (((edgeEnd_v2 t).x : ℝ) - ((edgeMid_v2 s t).x : ℝ)) + Real.pi / 2) ∧
    edgeAngle_v2 { x := 0, y := 0 } { x := 50, y := 50 } = Real.pi / 2 ∧
    edgeAngle_v2 { x := 0, y := 0 } { x := -50, y := 50 } = 3 * Real.pi / 2 ∧
    edgeAngle_v2 { x := 0, y := 0 } { x := 50, y := 50 } ≠
      edgeAngle_v2 { x := 0, y := 0 } { x := -50, y := 50 } := by
  have h1 : edgeEnd_v2 { x := 50, y := 50 } = { x := 1, y := -1, z := 1 / 200 } := by
    norm_num [edgeEnd_v2, Vec3.mk.injEq]
  have h2 : edgeMid_v2 { x := 0, y := 0 } { x := 50, y := 50 } =
      { x := 0, y := -1, z := 1 / 200 } := by
    norm_num [edgeMid_v2, edgeStart_v2, edgeEnd_v2, Vec3.mk.injEq]
  have h3 : edgeEnd_v2 { x := -50, y := 50 } = { x := -1, y := -1, z := 1 / 200 } := by
    norm_num [edgeEnd_v2, Vec3.mk.injEq]
  have h4 : edgeMid_v2 { x := 0, y := 0 } { x := -50, y := 50 } =
      { x := 0, y := -1, z := 1 / 200 } := by
    norm_num [edgeMid_v2, edgeStart_v2, edgeEnd_v2, Vec3.mk.injEq]
  have hA : edgeAngle_v2 { x := 0, y := 0 } { x := 50, y := 50 } = Real.pi / 2 := by
    rw [edgeAngle_v2_eq, h1, h2]
    norm_num [atan2, Real.arctan_zero]
  have hB : edgeAngle_v2 { x := 0, y := 0 } { x := -50, y := 50 } = 3 * Real.pi / 2 := by
    rw [edgeAngle_v2_eq, h3, h4]
    norm_num [atan2, Real.arctan_zero]
    ring
  refine ⟨edgeAngle_v2_eq, hA, hB, ?_⟩
  rw [hA, hB]
  intro h
  have hpi := Real.pi_pos
  nlinarith

end PersFlow
